import Mathlib

/-!
Shallow embedding of the RWA Studio compliance engine
(`src/smart-contracts/contracts`): the identity registry, the five
compliance rule contracts, the `ComplianceModule` aggregator and the
`RWAToken` integration point, together with proofs about the frozen
specification claims.

Addresses are modelled as naturals (`0` is `address(0)`), amounts and
timestamps as naturals (the verified paths perform no arithmetic that
can overflow a `uint256` on the inputs considered; `uint256` subtraction
that can revert is modelled with `Option`).  Solidity `mapping`s with an
all-zero default are modelled as total functions with the default value;
the investor flag mapping of `InvestorLimitRule` is modelled as the
`Finset` of flagged addresses so that its cardinality can be stated.
A `revert` is modelled as `none`.
-/

namespace RWA

abbrev Addr := Nat
abbrev Amount := Nat
abbrev Time := Nat

/-! ## Identity registry (`IdentityRegistry.sol`) -/

inductive VerificationLevel where
  | None
  | Basic
  | Accredited
  | Institutional
deriving DecidableEq, Repr

/-- `uint8(level)` as used by `AccreditedInvestorRule._isAccredited`. -/
def VerificationLevel.rank : VerificationLevel → Nat
  | .None => 0
  | .Basic => 1
  | .Accredited => 2
  | .Institutional => 3

/-- The `Identity` struct of `IIdentityRegistry.sol`. -/
structure Identity where
  isVerified : Bool
  level : VerificationLevel
  jurisdiction : String
  verificationDate : Time
  expirationDate : Time
  identityHash : Nat
deriving DecidableEq, Repr

/-- Solidity default value of the `Identity` struct. -/
def Identity.empty : Identity :=
  ⟨false, VerificationLevel.None, "", 0, 0, 0⟩

/-- Storage of `IdentityRegistry` read by the verified operations
(`_identities`; the enumeration set and the agent list are not read by
any of the claims below). -/
structure RegistryState where
  identities : Addr → Identity

namespace IdentityRegistry

/-- `IdentityRegistry._isExpired`: `block.timestamp > expirationDate`. -/
def isExpired (now : Time) (expirationDate : Time) : Bool :=
  decide (expirationDate < now)

/-- `IdentityRegistry.isVerified`. -/
def isVerified (s : RegistryState) (now : Time) (account : Addr) : Bool :=
  let identity := s.identities account
  identity.isVerified && !(isExpired now identity.expirationDate)

/-- `IdentityRegistry.getVerificationLevel`. -/
def getVerificationLevel (s : RegistryState) (now : Time) (account : Addr) :
    VerificationLevel :=
  let identity := s.identities account
  if !identity.isVerified || isExpired now identity.expirationDate then
    VerificationLevel.None
  else
    identity.level

/-- `IdentityRegistry.getIdentity`: returns the raw stored record. -/
def getIdentity (s : RegistryState) (account : Addr) : Identity :=
  s.identities account

end IdentityRegistry

/-! ## GeographicRule (`GeographicRule.sol`) -/

/-- Storage of `GeographicRule` (the token and registry addresses are
modelled by passing the registry state to the reads). -/
structure GeoState where
  active : Bool
  isAllowlistMode : Bool
  jurisdictionStatus : String → Bool
  configuredJurisdictions : List String

namespace GeographicRule

/-- `GeographicRule._isJurisdictionAllowed`. -/
def isJurisdictionAllowedFor (g : GeoState) (reg : RegistryState) (account : Addr) :
    Bool :=
  let identity := IdentityRegistry.getIdentity reg account
  if identity.isVerified = false then
    false
  else if g.isAllowlistMode then
    g.jurisdictionStatus identity.jurisdiction
  else
    !(g.jurisdictionStatus identity.jurisdiction)

/-- `GeographicRule.canTransfer`. -/
def canTransfer (g : GeoState) (reg : RegistryState) (fromA toA : Addr)
    (amount : Amount) : Bool :=
  if g.active = false then true
  else if fromA = 0 then isJurisdictionAllowedFor g reg toA
  else if toA = 0 then isJurisdictionAllowedFor g reg fromA
  else isJurisdictionAllowedFor g reg fromA && isJurisdictionAllowedFor g reg toA

end GeographicRule

/-! ## HoldingPeriodRule (`HoldingPeriodRule.sol`) -/

structure HoldingState where
  active : Bool
  holdingPeriod : Nat
  acquisitionTimestamp : Addr → Time
  exemptAddresses : Addr → Bool
  customHoldingPeriods : Addr → Nat
  hasCustomHoldingPeriod : Addr → Bool

namespace HoldingPeriodRule

/-- The applicable period of `_hasHoldingPeriodPassed`: the per-account
custom period when set, else the global period. -/
def applicablePeriod (h : HoldingState) (account : Addr) : Nat :=
  if h.hasCustomHoldingPeriod account then h.customHoldingPeriods account
  else h.holdingPeriod

/-- `HoldingPeriodRule._hasHoldingPeriodPassed`. -/
def hasHoldingPeriodPassed (h : HoldingState) (now : Time) (account : Addr) :
    Bool :=
  let acquiredAt := h.acquisitionTimestamp account
  if acquiredAt = 0 then false
  else decide (acquiredAt + applicablePeriod h account ≤ now)

/-- `HoldingPeriodRule.canTransfer`. -/
def canTransfer (h : HoldingState) (now : Time) (fromA toA : Addr)
    (amount : Amount) : Bool :=
  if h.active = false then true
  else if fromA = 0 then true
  else if toA = 0 then true
  else if h.exemptAddresses fromA then true
  else hasHoldingPeriodPassed h now fromA

end HoldingPeriodRule

/-! ## AccreditedInvestorRule (`AccreditedInvestorRule.sol`) -/

structure AccreditedState where
  active : Bool
  minimumLevel : VerificationLevel
  exemptAddresses : Addr → Bool

namespace AccreditedInvestorRule

/-- `AccreditedInvestorRule._isAccredited`. -/
def isAccredited (s : AccreditedState) (reg : RegistryState) (now : Time)
    (account : Addr) : Bool :=
  if s.exemptAddresses account then true
  else
    decide (s.minimumLevel.rank ≤
      (IdentityRegistry.getVerificationLevel reg now account).rank)

/-- `AccreditedInvestorRule.canTransfer`. -/
def canTransfer (s : AccreditedState) (reg : RegistryState) (now : Time)
    (fromA toA : Addr) (amount : Amount) : Bool :=
  if s.active = false then true
  else if fromA = 0 then isAccredited s reg now toA
  else if toA = 0 then true
  else isAccredited s reg now toA

end AccreditedInvestorRule

/-! ## TransferLimitRule (`TransferLimitRule.sol`) -/

structure TransferLimitState where
  active : Bool
  maxTokensPerInvestor : Nat
  maxInvestmentAmount : Nat
  tokenPriceUSDCents : Nat
  customMaxTokens : Addr → Nat
  hasCustomLimit : Addr → Bool
  totalInvestmentUSD : Addr → Nat
  exemptAddresses : Addr → Bool

namespace TransferLimitRule

/-- `TransferLimitRule._checkLimits` (the two early `return false`
branches are folded into sequential conditions). -/
def checkLimits (s : TransferLimitState) (bal : Addr → Amount)
    (account : Addr) (amount : Amount) : Bool :=
  if s.exemptAddresses account then true
  else
    let newBalance := bal account + amount
    let applicableLimit :=
      if s.hasCustomLimit account then s.customMaxTokens account
      else s.maxTokensPerInvestor
    if 0 < s.maxTokensPerInvestor ∧ applicableLimit < newBalance then false
    else if 0 < s.maxInvestmentAmount ∧ 0 < s.tokenPriceUSDCents ∧
        s.maxInvestmentAmount <
          s.totalInvestmentUSD account + amount * s.tokenPriceUSDCents / 10 ^ 18 then
      false
    else true

/-- `TransferLimitRule.canTransfer`. -/
def canTransfer (s : TransferLimitState) (bal : Addr → Amount)
    (fromA toA : Addr) (amount : Amount) : Bool :=
  if s.active = false then true
  else if fromA = 0 then checkLimits s bal toA amount
  else if toA = 0 then true
  else checkLimits s bal toA amount

end TransferLimitRule

/-! ## InvestorLimitRule (`InvestorLimitRule.sol`) -/

/-- Storage of `InvestorLimitRule`; the mapping
`isInvestor : address => bool` is modelled as the finite set of flagged
addresses. -/
structure InvestorLimitState where
  maxInvestors : Nat
  currentInvestorCount : Nat
  investors : Finset Addr
  active : Bool
deriving DecidableEq

namespace InvestorLimitRule

/-- `InvestorLimitRule.canTransfer`. -/
def canTransfer (s : InvestorLimitState) (bal : Addr → Amount)
    (fromA toA : Addr) (amount : Amount) : Bool :=
  if s.active = false then true
  else if fromA = 0 then
    if toA ∉ s.investors ∧ 0 < amount then
      decide (s.currentInvestorCount < s.maxInvestors)
    else true
  else if toA = 0 then true
  else
    if bal toA = 0 ∧ 0 < amount ∧ toA ∉ s.investors then
      decide (s.currentInvestorCount < s.maxInvestors)
    else true

/-- `currentInvestorCount--` with the `uint256` underflow revert. -/
def decCount (n : Nat) : Option Nat :=
  if n = 0 then none else some (n - 1)

/-- The sender block shared by the burning and the regular-transfer
branches of `updateInvestorCount`: when the sender transfers its whole
balance away and is flagged, unflag it and decrement the counter. -/
def dropSenderIfEmptied (bal : Addr → Amount) (s : InvestorLimitState)
    (fromA : Addr) (amount : Amount) : Option InvestorLimitState :=
  if bal fromA = amount ∧ fromA ∈ s.investors then
    (decCount s.currentInvestorCount).map fun c =>
      { s with currentInvestorCount := c, investors := s.investors.erase fromA }
  else some s

/-- The recipient block of the regular-transfer branch of
`updateInvestorCount`: when the recipient had a zero balance and is not
flagged, flag it and increment the counter. -/
def addRecipientIfNew (bal : Addr → Amount) (s : InvestorLimitState)
    (toA : Addr) : InvestorLimitState :=
  if bal toA = 0 ∧ toA ∉ s.investors then
    { s with currentInvestorCount := s.currentInvestorCount + 1,
             investors := insert toA s.investors }
  else s

/-- `InvestorLimitRule.updateInvestorCount` (caller is the token). -/
def updateInvestorCount (bal : Addr → Amount) (s : InvestorLimitState)
    (fromA toA : Addr) (amount : Amount) : Option InvestorLimitState :=
  if s.active = false then some s
  else if fromA = 0 ∧ 0 < amount then
    if toA ∈ s.investors then some s
    else some { s with currentInvestorCount := s.currentInvestorCount + 1,
                       investors := insert toA s.investors }
  else if toA = 0 then
    dropSenderIfEmptied bal s fromA amount
  else if 0 < amount then
    (dropSenderIfEmptied bal s fromA amount).map fun s1 =>
      addRecipientIfNew bal s1 toA
  else some s

/-- One loop iteration of `InvestorLimitRule.initializeInvestorCount`:
a positive-balance address is flagged and counted when new; a
zero-balance address is unflagged (without touching the counter). -/
def initStep (bal : Addr → Amount) (s : InvestorLimitState) (a : Addr) :
    InvestorLimitState :=
  if 0 < bal a then
    if a ∈ s.investors then s
    else { s with currentInvestorCount := s.currentInvestorCount + 1,
                  investors := insert a s.investors }
  else
    if a ∈ s.investors then { s with investors := s.investors.erase a }
    else s

/-- `InvestorLimitRule.initializeInvestorCount`: resets the counter to
zero and re-derives flags from the supplied list only. -/
def initializeInvestorCount (bal : Addr → Amount) (s : InvestorLimitState)
    (investorsList : List Addr) : InvestorLimitState :=
  investorsList.foldl (initStep bal) { s with currentInvestorCount := 0 }

/-- States of `InvestorLimitRule` reachable by any sequence of its
operations (constructor, `updateInvestorCount` with arbitrary token
balances at call time, `initializeInvestorCount`, `setMaxInvestors`,
`setActive`). -/
inductive Reachable : InvestorLimitState → Prop where
  | construct (maxInvestors : Nat) :
      0 < maxInvestors → Reachable ⟨maxInvestors, 0, ∅, true⟩
  | update (s s1 : InvestorLimitState) (bal : Addr → Amount)
      (fromA toA : Addr) (amount : Amount) :
      Reachable s → updateInvestorCount bal s fromA toA amount = some s1 →
      Reachable s1
  | initCount (s : InvestorLimitState) (bal : Addr → Amount)
      (investorsList : List Addr) :
      Reachable s → Reachable (initializeInvestorCount bal s investorsList)
  | setMax (s : InvestorLimitState) (m : Nat) :
      Reachable s → 0 < m → Reachable { s with maxInvestors := m }
  | setActive (s : InvestorLimitState) (b : Bool) :
      Reachable s → Reachable { s with active := b }

/-- Reachability restricted to sequences that never call
`initializeInvestorCount`. -/
inductive ReachableNoInit : InvestorLimitState → Prop where
  | construct (maxInvestors : Nat) :
      0 < maxInvestors → ReachableNoInit ⟨maxInvestors, 0, ∅, true⟩
  | update (s s1 : InvestorLimitState) (bal : Addr → Amount)
      (fromA toA : Addr) (amount : Amount) :
      ReachableNoInit s → updateInvestorCount bal s fromA toA amount = some s1 →
      ReachableNoInit s1
  | setMax (s : InvestorLimitState) (m : Nat) :
      ReachableNoInit s → 0 < m → ReachableNoInit { s with maxInvestors := m }
  | setActive (s : InvestorLimitState) (b : Bool) :
      ReachableNoInit s → ReachableNoInit { s with active := b }

end InvestorLimitRule

/-! ## The closed set of rule implementations -/

/-- External state read by rule evaluation: the identity registry, the
token balances and the current block timestamp. -/
structure Env where
  reg : RegistryState
  bal : Addr → Amount
  now : Time

/-- A deployed compliance rule contract: one of the five
implementations with its storage. -/
inductive Rule where
  | investorLimit (s : InvestorLimitState)
  | geographic (s : GeoState)
  | accredited (s : AccreditedState)
  | holdingPeriod (s : HoldingState)
  | transferLimit (s : TransferLimitState)

/-- `IComplianceRule.isActive` of each implementation: returns the
`active` storage flag. -/
def Rule.isActive : Rule → Bool
  | .investorLimit s => s.active
  | .geographic s => s.active
  | .accredited s => s.active
  | .holdingPeriod s => s.active
  | .transferLimit s => s.active

/-- `IComplianceRule.canTransfer` dispatched to the implementation. -/
def Rule.canTransfer (r : Rule) (env : Env) (fromA toA : Addr)
    (amount : Amount) : Bool :=
  match r with
  | .investorLimit s => InvestorLimitRule.canTransfer s env.bal fromA toA amount
  | .geographic s => GeographicRule.canTransfer s env.reg fromA toA amount
  | .accredited s =>
      AccreditedInvestorRule.canTransfer s env.reg env.now fromA toA amount
  | .holdingPeriod s => HoldingPeriodRule.canTransfer s env.now fromA toA amount
  | .transferLimit s => TransferLimitRule.canTransfer s env.bal fromA toA amount

/-! ## ComplianceModule (`ComplianceModule.sol`)

The rule collection is OpenZeppelin `EnumerableSet.AddressSet`: an
array of values with an index map.  `add` appends a new value;
`remove` overwrites the removed slot with the last value and pops. -/

namespace ComplianceModule

/-- `EnumerableSet.add`: appends when absent; returns whether the set
changed. -/
def esAdd (l : List Addr) (a : Addr) : List Addr × Bool :=
  if a ∈ l then (l, false) else (l ++ [a], true)

/-- `EnumerableSet.remove`: swaps the last value into the removed slot
and pops; returns whether the set changed. -/
def esRemove (l : List Addr) (a : Addr) : List Addr × Bool :=
  if h : a ∈ l then
    ((l.set (l.indexOf a) (l.getLast (List.ne_nil_of_mem h))).dropLast, true)
  else (l, false)

/-- `ComplianceModule.addRule`: requires a nonzero address and a
successful `add`; `none` is the revert. -/
def addRule (rules : List Addr) (rule : Addr) : Option (List Addr) :=
  if rule = 0 then none
  else
    let p := esAdd rules rule
    if p.2 then some p.1 else none

/-- `ComplianceModule.removeRule`: requires a successful `remove`;
`none` is the revert. -/
def removeRule (rules : List Addr) (rule : Addr) : Option (List Addr) :=
  let p := esRemove rules rule
  if p.2 then some p.1 else none

/-- `ComplianceModule.canTransfer`: iterates over `_rules.at(i)` in
array order and returns `false` on the first failing rule.  `ruleAt`
maps a rule contract address to the deployed rule. -/
def canTransfer (rules : List Addr) (ruleAt : Addr → Rule) (env : Env)
    (fromA toA : Addr) (amount : Amount) : Bool :=
  rules.all fun a => (ruleAt a).canTransfer env fromA toA amount

/-- An owner call on the rule collection. -/
inductive ModOp where
  | add (a : Addr)
  | remove (a : Addr)
deriving DecidableEq, Repr

def ModOp.isAdd : ModOp → Bool
  | .add _ => true
  | .remove _ => false

/-- Effect of one owner call on the stored rule array; a reverted call
leaves the storage unchanged. -/
def applyOp (rules : List Addr) : ModOp → List Addr
  | .add a => (addRule rules a).getD rules
  | .remove a => (removeRule rules a).getD rules

/-- `getRules()` after a sequence of owner calls starting from the
empty collection (the value array is returned as stored). -/
def execOps (ops : List ModOp) : List Addr :=
  ops.foldl applyOp []

/-- Modelled from the spec: one step of the rule list the specification
describes — a successful add appends a new nonzero rule, a removal
deletes in place preserving the order of the rest. -/
def specStep (l : List Addr) : ModOp → List Addr
  | .add a => if a = 0 ∨ a ∈ l then l else l ++ [a]
  | .remove a => l.erase a

/-- Modelled from the spec: "getRules() lists the remaining rules in
the order they were added". -/
def insertionOrderSpec (ops : List ModOp) : List Addr :=
  ops.foldl specStep []

/-- The `ComplianceStatus` struct of `ComplianceModule.sol`. -/
structure ComplianceStatusRec where
  isCompliant : Bool
  status : String
  lastUpdate : Time
deriving DecidableEq, Repr

/-- `ComplianceModule.getComplianceStatus`. -/
def getComplianceStatus (statusOf : Addr → ComplianceStatusRec) (now : Time)
    (account : Addr) : Bool × String × Time :=
  let accountStatus := statusOf account
  if accountStatus.lastUpdate = 0 then (true, "No compliance issues", now)
  else (accountStatus.isCompliant, accountStatus.status, accountStatus.lastUpdate)

end ComplianceModule

/-! ## RWAToken (`RWAToken.sol`) -/

structure TokenState where
  balances : Addr → Amount
  totalSupplyAmt : Amount
  maxSupply : Amount
  paused : Bool
  transfersEnabled : Bool

/-- A call from the token into the compliance engine.  `RWAToken`
contains exactly one call site that can reach the compliance module
(the `canTransfer` consultation inside `_update`) and no call site at
all for the rule update hooks `updateInvestorCount`,
`recordAcquisition` and `recordInvestment`. -/
inductive EngineCall where
  | canTransferCheck (fromA toA : Addr) (amount : Amount)
  | updateInvestorCountHook (fromA toA : Addr) (amount : Amount)
  | recordAcquisitionHook (account : Addr) (timestamp : Time)
  | recordInvestmentHook (account : Addr) (amount : Amount)
deriving DecidableEq, Repr

namespace RWAToken

/-- `RWAToken.isVerified`: `true` when no registry is set, else the
registry's derived verification. -/
def isVerifiedOn (reg : Option RegistryState) (now : Time) (account : Addr) :
    Bool :=
  match reg with
  | none => true
  | some r => IdentityRegistry.isVerified r now account

/-- `RWAToken.canTransfer` (the public view).  The compliance module is
modelled as an optional oracle so that independence from it can be
stated. -/
def canTransfer (s : TokenState) (reg : Option RegistryState) (now : Time)
    (comp : Option (Addr → Addr → Amount → Bool)) (fromA toA : Addr)
    (amount : Amount) : Bool :=
  if s.transfersEnabled = false then false
  else if s.paused then false
  else if fromA = 0 ∨ toA = 0 then false
  else if amount = 0 then false
  else if (isVerifiedOn reg now fromA && isVerifiedOn reg now toA) = false then
    false
  else
    match comp with
    | none => true
    | some c => c fromA toA amount

/-- OpenZeppelin `ERC20._update`: the balance and supply mutation;
`none` is the insufficient-balance revert. -/
def erc20Update (s : TokenState) (fromA toA : Addr) (amount : Amount) :
    Option TokenState :=
  let afterFrom : Option TokenState :=
    if fromA = 0 then
      some { s with totalSupplyAmt := s.totalSupplyAmt + amount }
    else if s.balances fromA < amount then none
    else
      some { s with balances := fun a =>
        if a = fromA then s.balances a - amount else s.balances a }
  afterFrom.map fun s1 =>
    if toA = 0 then { s1 with totalSupplyAmt := s1.totalSupplyAmt - amount }
    else { s1 with balances := fun a =>
      if a = toA then s1.balances a + amount else s1.balances a }

/-- `RWAToken._update`, with the trace of calls into the compliance
engine: the `canTransfer` guard runs only when both addresses are
nonzero, and no rule update hook is ever called (there is no such call
site in `RWAToken.sol`). -/
def updateOp (s : TokenState) (reg : Option RegistryState) (now : Time)
    (comp : Option (Addr → Addr → Amount → Bool)) (fromA toA : Addr)
    (amount : Amount) : Option TokenState × List EngineCall :=
  if s.paused then (none, [])
  else if fromA ≠ 0 ∧ toA ≠ 0 then
    if canTransfer s reg now comp fromA toA amount then
      (erc20Update s fromA toA amount, [EngineCall.canTransferCheck fromA toA amount])
    else (none, [EngineCall.canTransferCheck fromA toA amount])
  else (erc20Update s fromA toA amount, [])

/-- `RWAToken.mint` (owner call): the `onlyVerified` modifier, the max
supply check, then `_mint` which runs `_update(0, to, amount)`. -/
def mint (s : TokenState) (reg : Option RegistryState) (now : Time)
    (comp : Option (Addr → Addr → Amount → Bool)) (toA : Addr)
    (amount : Amount) : Option TokenState × List EngineCall :=
  if isVerifiedOn reg now toA = false then (none, [])
  else if s.maxSupply < s.totalSupplyAmt + amount then (none, [])
  else updateOp s reg now comp 0 toA amount

end RWAToken

/-! ## Concrete fixtures used to evaluate the definitions -/

/-- A registry whose account 1 holds a record verified at level Basic
for jurisdiction "US" expiring at time 100; every other account is
unrecorded. -/
def regEx : RegistryState :=
  ⟨fun a => if a = 1 then ⟨true, VerificationLevel.Basic, "US", 0, 100, 0⟩
            else Identity.empty⟩

/-- An active `GeographicRule` in blocklist mode with no configured
jurisdiction. -/
def geoEx : GeoState := ⟨true, false, fun _ => false, []⟩

/-- An active `HoldingPeriodRule` with a global period of 86400 seconds
and an acquisition recorded at time 10 for account 1. -/
def holdingEx : HoldingState :=
  ⟨true, 86400, fun a => if a = 1 then 10 else 0,
   fun _ => false, fun _ => 0, fun _ => false⟩

/-- A fresh token: zero balances, max supply 1000000, not paused,
transfers not yet enabled. -/
def tokenEx : TokenState := ⟨fun _ => 0, 0, 1000000, false, false⟩

/-- A compliance oracle that rejects every transfer. -/
def rejectAll : Addr → Addr → Amount → Bool := fun _ _ _ => false

/-! ## Theorems -/

/-- Every rule implementation returns `true` from `canTransfer` when
its `active` flag is off: each of the five bodies starts with
`if (!active) return true`. -/
theorem Rule.canTransfer_of_inactive (r : Rule) (env : Env) (fromA toA : Addr)
    (amount : Amount) (h : r.isActive = false) :
    r.canTransfer env fromA toA amount = true := by
  cases r <;> simp only [Rule.isActive] at h <;>
    simp [Rule.canTransfer, InvestorLimitRule.canTransfer,
      GeographicRule.canTransfer, AccreditedInvestorRule.canTransfer,
      HoldingPeriodRule.canTransfer, TransferLimitRule.canTransfer, h]

/-- C1: the aggregator's `canTransfer(from, to, amount)` returns `true`
iff every installed rule whose `isActive()` is `true` returns `true`
from its own `canTransfer(from, to, amount)`; an installed rule whose
`isActive()` is `false` never affects the result, whatever its internal
state, because its `canTransfer` is constantly `true`. -/
theorem complianceModule_canTransfer_iff_active_rules_pass
    (rules : List Addr) (ruleAt : Addr → Rule) (env : Env)
    (fromA toA : Addr) (amount : Amount) :
    ComplianceModule.canTransfer rules ruleAt env fromA toA amount = true ↔
      ∀ a ∈ rules, (ruleAt a).isActive = true →
        (ruleAt a).canTransfer env fromA toA amount = true := by
  simp only [ComplianceModule.canTransfer, List.all_eq_true]
  constructor
  · intro h a ha _
    exact h a ha
  · intro h a ha
    by_cases hact : (ruleAt a).isActive = true
    · exact h a ha hact
    · exact Rule.canTransfer_of_inactive _ _ _ _ _ (by simpa using hact)

/-- C4: with `HoldingPeriodRule` active, a regular transfer with a
non-exempt sender is blocked exactly when the sender has no recorded
acquisition timestamp or `now < acquiredAt + applicablePeriod`; in
particular at `now = acquiredAt + applicablePeriod` the transfer is
allowed (inclusive boundary). -/
theorem holdingPeriodRule_blocks_iff (h : HoldingState) (now : Time)
    (fromA toA : Addr) (amount : Amount) (hact : h.active = true)
    (hf : fromA ≠ 0) (ht : toA ≠ 0) (hex : h.exemptAddresses fromA = false) :
    HoldingPeriodRule.canTransfer h now fromA toA amount = false ↔
      (h.acquisitionTimestamp fromA = 0 ∨
        now < h.acquisitionTimestamp fromA +
          HoldingPeriodRule.applicablePeriod h fromA) := by
  simp only [HoldingPeriodRule.canTransfer, hact, hf, ht, hex]
  by_cases hz : h.acquisitionTimestamp fromA = 0 <;>
    simp [HoldingPeriodRule.hasHoldingPeriodPassed, hz, Nat.not_le, Nat.lt_irrefl]

/-- Witness for C4: with a global period of 86400 and the acquisition
of account 1 recorded at time 10, a transfer at time 86409 is blocked. -/
theorem holdingPeriodRule_blocks_iff_witness :
    HoldingPeriodRule.canTransfer holdingEx 86409 1 2 5 = false :=
  (holdingPeriodRule_blocks_iff holdingEx 86409 1 2 5 rfl (by decide)
    (by decide) rfl).mpr (Or.inr (by decide))

/-- C8: `addRule` fails (reverts) when the rule is already installed,
`removeRule` fails when it is absent, and in both failure cases the
stored rule collection is unchanged. -/
theorem complianceModule_add_remove_fail (rules : List Addr) (r : Addr) :
    (r ∈ rules →
      ComplianceModule.addRule rules r = none ∧
        ComplianceModule.applyOp rules (ComplianceModule.ModOp.add r) = rules) ∧
    (r ∉ rules →
      ComplianceModule.removeRule rules r = none ∧
        ComplianceModule.applyOp rules (ComplianceModule.ModOp.remove r) = rules) := by
  constructor
  · intro hmem
    have hadd : ComplianceModule.addRule rules r = none := by
      by_cases hz : r = 0 <;>
        simp [ComplianceModule.addRule, ComplianceModule.esAdd, hmem, hz]
    exact ⟨hadd, by simp [ComplianceModule.applyOp, hadd]⟩
  · intro hmem
    have hrem : ComplianceModule.removeRule rules r = none := by
      simp [ComplianceModule.removeRule, ComplianceModule.esRemove, hmem]
    exact ⟨hrem, by simp [ComplianceModule.applyOp, hrem]⟩

/-- Witness for C8: adding rule 5 to a collection already holding it
fails, and removing the absent rule 7 fails. -/
theorem complianceModule_add_remove_fail_witness :
    ComplianceModule.addRule [5] 5 = none ∧
      ComplianceModule.removeRule [5] 7 = none :=
  ⟨((complianceModule_add_remove_fail [5] 5).1 (by decide)).1,
   ((complianceModule_add_remove_fail [5] 7).2 (by decide)).1⟩

/-- C9: for an account whose status-cache entry was never written
(`lastUpdate == 0`), `getComplianceStatus` reports compliant with the
status string "No compliance issues" and the current timestamp. -/
theorem complianceModule_default_status
    (statusOf : Addr → ComplianceModule.ComplianceStatusRec) (now : Time)
    (account : Addr) (h : (statusOf account).lastUpdate = 0) :
    ComplianceModule.getComplianceStatus statusOf now account =
      (true, "No compliance issues", now) := by
  simp [ComplianceModule.getComplianceStatus, h]

/-- Witness for C9 at an all-default status cache. -/
theorem complianceModule_default_status_witness :
    ComplianceModule.getComplianceStatus (fun _ => ⟨false, "", 0⟩) 7 3 =
      (true, "No compliance issues", 7) :=
  complianceModule_default_status (fun _ => ⟨false, "", 0⟩) 7 3 rfl

/-- C10: the token's public `canTransfer` returns `false` whenever
transfers are disabled, the token is paused, either address is zero or
the amount is zero — for every registry state and every compliance
oracle, so the result never depends on them; mint-shaped and
burn-shaped queries (a zero address on one side) always report
`false`. -/
theorem token_canTransfer_false_on_basic_checks (s : TokenState)
    (reg : Option RegistryState) (now : Time)
    (comp : Option (Addr → Addr → Amount → Bool)) (fromA toA : Addr)
    (amount : Amount)
    (h : s.transfersEnabled = false ∨ s.paused = true ∨ fromA = 0 ∨
      toA = 0 ∨ amount = 0) :
    RWAToken.canTransfer s reg now comp fromA toA amount = false := by
  rcases h with h | h | h | h | h <;>
    simp [RWAToken.canTransfer, h, ite_self]

/-- Witness for C10: a mint-shaped query (`from = 0`) reports `false`
on a token with transfers enabled and not paused. -/
theorem token_canTransfer_false_on_basic_checks_witness :
    RWAToken.canTransfer ⟨fun _ => 0, 0, 0, false, true⟩ none 0 none 0 1 5 =
      false :=
  token_canTransfer_false_on_basic_checks ⟨fun _ => 0, 0, 0, false, true⟩
    none 0 none 0 1 5 (Or.inr (Or.inr (Or.inl rfl)))

/-- C5, counterexample: at the exact expiry instant `now = expiresAt`
(here both 100) the registry still reports account 1 as verified at
level Basic, because `_isExpired` uses the strict comparison
`block.timestamp > expirationDate`; the claim's `now >= expiresAt`
boundary is refuted. -/
theorem identityRegistry_still_verified_at_expiry_instant :
    100 ≤ (100 : Time) ∧
      IdentityRegistry.isVerified regEx 100 1 = true ∧
      IdentityRegistry.getVerificationLevel regEx 100 1 =
        VerificationLevel.Basic := by
  refine ⟨le_refl 100, ?_, ?_⟩ <;> rfl

/-- C5, amended: once `now > expiresAt` (strictly), `isVerified`
returns `false` and `getVerificationLevel` returns `None`, whatever the
stored record holds; the reads are pure and the record itself is
untouched. -/
theorem identityRegistry_unverified_after_expiry (reg : RegistryState)
    (now : Time) (account : Addr)
    (h : (reg.identities account).expirationDate < now) :
    IdentityRegistry.isVerified reg now account = false ∧
      IdentityRegistry.getVerificationLevel reg now account =
        VerificationLevel.None := by
  constructor
  · simp [IdentityRegistry.isVerified, IdentityRegistry.isExpired, h]
  · simp [IdentityRegistry.getVerificationLevel, IdentityRegistry.isExpired, h]

/-- Witness for amended C5: at time 200, past account 1's expiry 100,
the registry reports unverified and level None. -/
theorem identityRegistry_unverified_after_expiry_witness :
    IdentityRegistry.isVerified regEx 200 1 = false ∧
      IdentityRegistry.getVerificationLevel regEx 200 1 =
        VerificationLevel.None :=
  identityRegistry_unverified_after_expiry regEx 200 1 (by decide)

/-- C6, counterexample: account 1's record expired at 100, so at query
time 200 it is unverified in the derived sense, yet the active
blocklist-mode `GeographicRule` allows a mint to it:
`_isJurisdictionAllowed` reads the raw `isVerified` flag through
`getIdentity` and never consults the expiry. -/
theorem geographicRule_passes_expired_record :
    IdentityRegistry.isVerified regEx 200 1 = false ∧
      GeographicRule.canTransfer geoEx regEx 0 1 5 = true := by
  exact ⟨rfl, rfl⟩

/-- C6, amended: with `GeographicRule` active, every transfer in which
a checked party (recipient for mint, sender for burn, both otherwise)
is structurally unverified — its stored record's `isVerified` flag is
`false` — is blocked, independent of allowlist/blocklist mode; a party
whose record is present but expired is treated as verified by this
rule. -/
theorem geographicRule_blocks_structurally_unverified (g : GeoState)
    (reg : RegistryState) (fromA toA : Addr) (amount : Amount)
    (hact : g.active = true)
    (h : (fromA = 0 ∧ (IdentityRegistry.getIdentity reg toA).isVerified = false) ∨
      (fromA ≠ 0 ∧ toA = 0 ∧
        (IdentityRegistry.getIdentity reg fromA).isVerified = false) ∨
      (fromA ≠ 0 ∧ toA ≠ 0 ∧
        ((IdentityRegistry.getIdentity reg fromA).isVerified = false ∨
          (IdentityRegistry.getIdentity reg toA).isVerified = false))) :
    GeographicRule.canTransfer g reg fromA toA amount = false := by
  rcases h with ⟨hf, hv⟩ | ⟨hf, ht, hv⟩ | ⟨hf, ht, hv⟩
  · simp [GeographicRule.canTransfer, GeographicRule.isJurisdictionAllowedFor,
      hact, hf, hv]
  · simp [GeographicRule.canTransfer, GeographicRule.isJurisdictionAllowedFor,
      hact, hf, ht, hv]
  · rcases hv with hv | hv <;>
      simp [GeographicRule.canTransfer, GeographicRule.isJurisdictionAllowedFor,
        hact, hf, ht, hv]

/-- Witness for amended C6: a mint to the unrecorded account 2 is
blocked by the active rule. -/
theorem geographicRule_blocks_structurally_unverified_witness :
    GeographicRule.canTransfer geoEx regEx 0 2 5 = false :=
  geographicRule_blocks_structurally_unverified geoEx regEx 0 2 5 rfl
    (Or.inl ⟨rfl, rfl⟩)

/-- C7, counterexample: after adding rules 1, 2, 3 and removing 1, the
stored array is `[3, 2]` (`EnumerableSet.remove` swaps the last value
into the freed slot), not the insertion-order remainder `[2, 3]`; both
`getRules()` and the evaluation order of `canTransfer` follow the
stored array. -/
theorem complianceModule_order_broken_by_removal :
    ComplianceModule.execOps
        [ComplianceModule.ModOp.add 1, ComplianceModule.ModOp.add 2,
         ComplianceModule.ModOp.add 3, ComplianceModule.ModOp.remove 1] ≠
      ComplianceModule.insertionOrderSpec
        [ComplianceModule.ModOp.add 1, ComplianceModule.ModOp.add 2,
         ComplianceModule.ModOp.add 3, ComplianceModule.ModOp.remove 1] := by
  decide

/-- The effect of `addRule` (with revert) agrees with the
specification's insertion-order step on add operations. -/
theorem applyOp_add_eq_specStep (l : List Addr) (a : Addr) :
    ComplianceModule.applyOp l (ComplianceModule.ModOp.add a) =
      ComplianceModule.specStep l (ComplianceModule.ModOp.add a) := by
  by_cases hz : a = 0 <;> by_cases hm : a ∈ l <;>
    simp [ComplianceModule.applyOp, ComplianceModule.addRule,
      ComplianceModule.esAdd, ComplianceModule.specStep, hz, hm]

/-- C7, amended: as long as no `removeRule` occurs, `getRules()` lists
the rules in the order they were added (and `canTransfer` iterates the
same stored array); a successful `removeRule` swaps the last rule into
the removed slot, after which the order is the storage order rather
than the insertion order. -/
theorem complianceModule_order_preserved_without_removals
    (ops : List ComplianceModule.ModOp)
    (h : ∀ op ∈ ops, op.isAdd = true) :
    ComplianceModule.execOps ops = ComplianceModule.insertionOrderSpec ops := by
  have haux : ∀ (ops2 : List ComplianceModule.ModOp),
      (∀ op ∈ ops2, op.isAdd = true) → ∀ l : List Addr,
        ops2.foldl ComplianceModule.applyOp l =
          ops2.foldl ComplianceModule.specStep l := by
    intro ops2
    induction ops2 with
    | nil => intro _ l; rfl
    | cons op rest ih =>
      intro hall l
      have hop : op.isAdd = true := hall op (List.mem_cons_self op rest)
      have hrest : ∀ o ∈ rest, o.isAdd = true :=
        fun o ho => hall o (List.mem_cons_of_mem _ ho)
      cases op with
      | add a =>
        simp only [List.foldl_cons]
        rw [applyOp_add_eq_specStep]
        exact ih hrest _
      | remove a => simp [ComplianceModule.ModOp.isAdd] at hop
  exact haux ops h []

/-- Witness for amended C7 on the add-only sequence add 1, add 2. -/
theorem complianceModule_order_preserved_without_removals_witness :
    ComplianceModule.execOps
        [ComplianceModule.ModOp.add 1, ComplianceModule.ModOp.add 2] =
      ComplianceModule.insertionOrderSpec
        [ComplianceModule.ModOp.add 1, ComplianceModule.ModOp.add 2] :=
  complianceModule_order_preserved_without_removals _ (by decide)

/-- The sender block of `updateInvestorCount` preserves the
counter/flag-set correspondence whenever it completes. -/
theorem dropSenderIfEmptied_preserves (bal : Addr → Amount)
    (s s1 : InvestorLimitState) (fromA : Addr) (amount : Amount)
    (hinv : s.currentInvestorCount = s.investors.card)
    (h : InvestorLimitRule.dropSenderIfEmptied bal s fromA amount = some s1) :
    s1.currentInvestorCount = s1.investors.card := by
  unfold InvestorLimitRule.dropSenderIfEmptied at h
  by_cases hc : bal fromA = amount ∧ fromA ∈ s.investors
  · rw [if_pos hc] at h
    have hpos : s.currentInvestorCount ≠ 0 := by
      rw [hinv]
      exact Nat.pos_iff_ne_zero.mp (Finset.card_pos.mpr ⟨fromA, hc.2⟩)
    unfold InvestorLimitRule.decCount at h
    rw [if_neg hpos] at h
    simp only [Option.map_some', Option.some.injEq] at h
    subst h
    simp only [Finset.card_erase_of_mem hc.2, hinv]
  · rw [if_neg hc] at h
    simp only [Option.some.injEq] at h
    subst h
    exact hinv

/-- The recipient block of `updateInvestorCount` preserves the
counter/flag-set correspondence. -/
theorem addRecipientIfNew_preserves (bal : Addr → Amount)
    (s : InvestorLimitState) (toA : Addr)
    (hinv : s.currentInvestorCount = s.investors.card) :
    (InvestorLimitRule.addRecipientIfNew bal s toA).currentInvestorCount =
      (InvestorLimitRule.addRecipientIfNew bal s toA).investors.card := by
  unfold InvestorLimitRule.addRecipientIfNew
  by_cases hc : bal toA = 0 ∧ toA ∉ s.investors
  · simp [hc, Finset.card_insert_of_not_mem hc.2, hinv]
  · simp [hc, hinv]

/-- A completed `updateInvestorCount` call preserves the
counter/flag-set correspondence. -/
theorem updateInvestorCount_preserves (bal : Addr → Amount)
    (s s1 : InvestorLimitState) (fromA toA : Addr) (amount : Amount)
    (hinv : s.currentInvestorCount = s.investors.card)
    (h : InvestorLimitRule.updateInvestorCount bal s fromA toA amount = some s1) :
    s1.currentInvestorCount = s1.investors.card := by
  unfold InvestorLimitRule.updateInvestorCount at h
  by_cases hact : s.active = false
  · rw [if_pos hact] at h
    simp only [Option.some.injEq] at h
    subst h; exact hinv
  rw [if_neg hact] at h
  by_cases hmint : fromA = 0 ∧ 0 < amount
  · rw [if_pos hmint] at h
    by_cases hmem : toA ∈ s.investors
    · rw [if_pos hmem] at h
      simp only [Option.some.injEq] at h
      subst h; exact hinv
    · rw [if_neg hmem] at h
      simp only [Option.some.injEq] at h
      subst h
      simp only [Finset.card_insert_of_not_mem hmem, hinv]
  rw [if_neg hmint] at h
  by_cases hburn : toA = 0
  · rw [if_pos hburn] at h
    exact dropSenderIfEmptied_preserves bal s s1 fromA amount hinv h
  rw [if_neg hburn] at h
  by_cases hamt : 0 < amount
  · rw [if_pos hamt] at h
    rcases Option.map_eq_some'.mp h with ⟨s2, hd, hf⟩
    rw [← hf]
    exact addRecipientIfNew_preserves bal s2 toA
      (dropSenderIfEmptied_preserves bal s s2 fromA amount hinv hd)
  · rw [if_neg hamt] at h
    simp only [Option.some.injEq] at h
    subst h; exact hinv

/-- C3, counterexample: the state with `currentInvestorCount = 0` but
one flagged investor is reachable — bootstrap account 1 with
`initializeInvestorCount([1])` while its balance is positive, then call
`initializeInvestorCount([])`, which resets the counter to zero without
clearing flags of accounts absent from the supplied list. -/
theorem investorLimitRule_invariant_broken_by_init :
    InvestorLimitRule.Reachable ⟨1, 0, insert 1 ∅, true⟩ ∧
      ¬((⟨1, 0, insert 1 ∅, true⟩ : InvestorLimitState).currentInvestorCount =
        (⟨1, 0, insert 1 ∅, true⟩ : InvestorLimitState).investors.card) := by
  constructor
  · have heq : InvestorLimitRule.initializeInvestorCount (fun _ => 0)
        (InvestorLimitRule.initializeInvestorCount (fun _ => 1)
          ⟨1, 0, ∅, true⟩ [1]) [] =
        (⟨1, 0, insert 1 ∅, true⟩ : InvestorLimitState) := by decide
    exact heq ▸ (InvestorLimitRule.Reachable.initCount _ _ _
      (InvestorLimitRule.Reachable.initCount _ _ _
        (InvestorLimitRule.Reachable.construct 1 (by decide))))
  · decide

/-- C3, amended: in every state of `InvestorLimitRule` reachable
without `initializeInvestorCount` (constructor, `updateInvestorCount`,
`setMaxInvestors`, `setActive`), `currentInvestorCount` equals the
number of accounts flagged in `isInvestor`; an `initializeInvestorCount`
call whose account list omits a flagged investor can break the
equality. -/
theorem investorLimitRule_count_matches_flags (s : InvestorLimitState)
    (h : InvestorLimitRule.ReachableNoInit s) :
    s.currentInvestorCount = s.investors.card := by
  induction h with
  | construct m hm => simp
  | update s s1 bal fromA toA amount hs heq ih =>
      exact updateInvestorCount_preserves bal s s1 fromA toA amount ih heq
  | setMax s m hs hm ih => simpa using ih
  | setActive s b hs ih => simpa using ih

/-- Witness for amended C3: after the constructor and one mint update
for account 1, the counter 1 matches the one flagged investor. -/
theorem investorLimitRule_count_matches_flags_witness :
    (⟨2, 1, insert 1 ∅, true⟩ : InvestorLimitState).currentInvestorCount =
      (⟨2, 1, insert 1 ∅, true⟩ : InvestorLimitState).investors.card :=
  investorLimitRule_count_matches_flags _
    (InvestorLimitRule.ReachableNoInit.update _ _ (fun _ => 0) 0 1 5
      (InvestorLimitRule.ReachableNoInit.construct 2 (by decide)) (by decide))

/-- C2: evaluating `RWAToken.mint` on a fresh token whose compliance
oracle rejects every transfer: the mint succeeds (account 1's balance
becomes 100) while the engine-call trace is empty — the compliance
module is never consulted on the mint path (`_update` guards the check
with `from != 0 && to != 0`) and no rule update hook is invoked
(`RWAToken.sol` contains no call site for `updateInvestorCount`,
`recordAcquisition` or `recordInvestment`). -/
theorem token_mint_skips_compliance_and_hooks :
    (RWAToken.mint tokenEx (some regEx) 50 (some rejectAll) 1 100).2 =
        ([] : List EngineCall) ∧
      ((RWAToken.mint tokenEx (some regEx) 50 (some rejectAll) 1 100).1.map
        fun st => st.balances 1) = some 100 := by
  exact ⟨rfl, rfl⟩

end RWA
